import Mathlib

/-!
Verification of the kweeb-logger menubar receiver (src/menubar/main.go).

The file embeds the Go program shallowly:

* `Metrics`, `setField`, `decodeObj`, `unmarshal` embed the `Metrics` struct
  and the behaviour of `json.Unmarshal(buffer[:n], &metrics)` on it, following
  the documented matching rules of Go's `encoding/json`: an incoming object
  key is matched against the field tags preferring an exact match but also
  accepting a case-insensitive match; keys are processed in order (a later
  duplicate overwrites an earlier one); a field absent from the message keeps
  the zero value of the struct; JSON `null` is a no-op for these field types;
  a value of the wrong kind (or a non-integer literal for an `int` field, or
  an `int64`-overflowing literal) makes `Unmarshal` return an error, in which
  case `handleConnection` discards the partially filled struct, so the
  observable result is modelled as `none`.  JSON numbers are modelled by
  their rational value together with a flag recording whether the literal is
  in plain integer form (Go parses `int` fields with `strconv.ParseInt`, which
  rejects `5.0` and `5e1`); the binary `float64` representation and Unicode
  case folding beyond ASCII are idealized away.
* `handleConnection`, `startSocketListener` embed the read loop and the accept
  loop as trace functions over the sequence of read / accept results, emitting
  the log and publish actions the Go loops perform.
* `TrayState`, `onReady`, `updateMenuItems`, `renderCalls` embed the systray
  side: the menu-item globals (a `MenuItem` handle is `some ()` once assigned,
  `none` while the Go pointer is nil), the `isMenuInitialized` flag, and the
  `SetTitle` calls a render performs.
* `cleanup`, `mainStartup` embed the shutdown routine and the startup sequence
  of `main` / `startSocketListener` over a small filesystem/listener state.
-/

/-- Embeds the Go struct `Metrics` (src/menubar/main.go lines 13-19).  The Go
`int` fields are modelled as `Int`, the `float64` fields as `ℚ`. -/
structure Metrics where
  keypresses : Int
  mouseClicks : Int
  mouseDistanceIn : ℚ
  mouseDistanceMi : ℚ
  scrollSteps : Int
deriving DecidableEq, Repr

/-- The zero value of the Go struct `Metrics`, the state of `var metrics
Metrics` before `json.Unmarshal` fills it. -/
def zeroMetrics : Metrics :=
  { keypresses := 0, mouseClicks := 0, mouseDistanceIn := 0,
    mouseDistanceMi := 0, scrollSteps := 0 }

/-- A JSON value as far as the decode path distinguishes them.  `num q f`
is a number literal with rational value `q`; `f` records whether the literal
is in plain integer form (no fraction, no exponent), which is what Go's
`strconv.ParseInt` accepts when the target field is an `int`.  Non-numeric
values all make `Unmarshal` fail on the five tagged fields and are ignored on
unknown keys, so strings, booleans, arrays and nested objects are abstract. -/
inductive Jval where
  | num (q : ℚ) (intForm : Bool)
  | str (s : String)
  | boolean (b : Bool)
  | null
  | arr
  | obj
deriving DecidableEq

/-- Lower bound of Go's 64-bit `int`. -/
def int64Min : Int := -9223372036854775808

/-- Upper bound of Go's 64-bit `int`. -/
def int64Max : Int := 9223372036854775807

/-- The value Go stores when unmarshalling `v` into an `int` field:
`strconv.ParseInt` demands an integer-form literal and a value that fits in
64 bits; anything else is an unmarshalling error. -/
def asInt : Jval → Option Int
  | Jval.num q intForm =>
    if intForm = true ∧ q.den = 1 ∧ int64Min ≤ q.num ∧ q.num ≤ int64Max then
      some q.num
    else
      none
  | _ => none

/-- The value Go stores when unmarshalling `v` into a `float64` field: any
number literal is accepted (the idealization keeps its exact rational value). -/
def asNum : Jval → Option ℚ
  | Jval.num q _ => some q
  | _ => none

/-- Which struct field an incoming object key selects. -/
inductive FieldTag where
  | kp | mc | din | dmi | ss | other
deriving DecidableEq

/-- ASCII case folding of one character (the `A`..`Z` range maps to
`a`..`z`), the fragment of Go case folding the five field tags exercise. -/
def foldChar (c : Char) : Char :=
  if 65 ≤ c.toNat ∧ c.toNat ≤ 90 then Char.ofNat (c.toNat + 32) else c

/-- ASCII case folding of a key. -/
def foldKey (s : String) : String := String.mk (s.data.map foldChar)

/-- Embeds the key matching of `encoding/json`: the incoming key is compared
with the five field tags `keypresses`, `mouse_clicks`, `mouse_distance_in`,
`mouse_distance_mi`, `scroll_steps` accepting a case-insensitive match (the
tags are pairwise distinct under folding, so exact-match preference never
changes the outcome; folding is modelled at ASCII level). -/
def tagOf (k : String) : FieldTag :=
  if foldKey k = "keypresses" then FieldTag.kp
  else if foldKey k = "mouse_clicks" then FieldTag.mc
  else if foldKey k = "mouse_distance_in" then FieldTag.din
  else if foldKey k = "mouse_distance_mi" then FieldTag.dmi
  else if foldKey k = "scroll_steps" then FieldTag.ss
  else FieldTag.other

/-- Embeds how `json.Unmarshal` stores one object entry `k : v` into the
struct: `null` is a no-op, an unmatched key is ignored, a matched key stores
the converted value or fails the whole unmarshal on a conversion error. -/
def setField (m : Metrics) (k : String) (v : Jval) : Option Metrics :=
  if v = Jval.null then some m
  else
    match tagOf k with
    | FieldTag.kp => (asInt v).map fun i => { m with keypresses := i }
    | FieldTag.mc => (asInt v).map fun i => { m with mouseClicks := i }
    | FieldTag.din => (asNum v).map fun q => { m with mouseDistanceIn := q }
    | FieldTag.dmi => (asNum v).map fun q => { m with mouseDistanceMi := q }
    | FieldTag.ss => (asInt v).map fun i => { m with scrollSteps := i }
    | FieldTag.other => some m

/-- Embeds `json.Unmarshal` walking the entries of a JSON object in order,
starting from struct state `m`. -/
def decodeObj : Metrics → List (String × Jval) → Option Metrics
  | m, [] => some m
  | m, (k, v) :: rest =>
    match setField m k v with
    | none => none
    | some m2 => decodeObj m2 rest

/-- One inbound message as the reader sees it: either a payload that parses
as a JSON object (a list of key/value entries in message order), or anything
`json.Unmarshal` rejects before reaching the fields (invalid JSON, or a
top-level value that is not an object). -/
inductive Raw where
  | object (fields : List (String × Jval))
  | malformed
deriving DecidableEq

/-- Embeds `json.Unmarshal(buffer[:n], &metrics)` as `handleConnection`
observes it: the struct starts at its zero value and either every entry is
stored successfully or the message is rejected. -/
def unmarshal : Raw → Option Metrics
  | Raw.object fs => decodeObj zeroMetrics fs
  | Raw.malformed => none

/-- Whether a message entry is acceptable for the field its key selects: a
matched `int` field needs an integer-form in-range number, a matched
`float64` field needs a number, an unmatched key may hold anything. -/
def okField (k : String) (v : Jval) : Bool :=
  match tagOf k with
  | FieldTag.kp => (asInt v).isSome
  | FieldTag.mc => (asInt v).isSome
  | FieldTag.ss => (asInt v).isSome
  | FieldTag.din => (asNum v).isSome
  | FieldTag.dmi => (asNum v).isSome
  | FieldTag.other => true

/-- A structurally well-formed snapshot message: every entry whose key
matches one of the five fields carries a numeric value of the specified
type. -/
def wellFormedB (fs : List (String × Jval)) : Bool :=
  fs.all fun kv => okField kv.1 kv.2

/-- The value of the last entry of the message whose key matches tag `t`
(`encoding/json` processes entries in order, so a later duplicate wins). -/
def lastNum (fs : List (String × Jval)) (t : FieldTag) : Option Jval :=
  match fs with
  | [] => none
  | (k, v) :: rest =>
    match lastNum rest t with
    | some w => some w
    | none => if tagOf k = t then some v else none

/-- Specification-side value of an `int` field with default `d`: the value
carried by the message for tag `t`, or `d` when no key matches. -/
def specIntFrom (d : Int) (fs : List (String × Jval)) (t : FieldTag) : Int :=
  match lastNum fs t with
  | some w => (asInt w).getD d
  | none => d

/-- Specification-side value of a `float64` field with default `d`. -/
def specRatFrom (d : ℚ) (fs : List (String × Jval)) (t : FieldTag) : ℚ :=
  match lastNum fs t with
  | some w => (asNum w).getD d
  | none => d

/-- Specification-side description of a decoded snapshot, written from the
amended claim C1: each field carries the value the message supplies for its
(case-insensitively matched) tag, every field with no matching key is zero,
and entries with non-matching keys are ignored (only the five tags are
consulted). -/
def specDecode (fs : List (String × Jval)) : Metrics :=
  { keypresses := specIntFrom 0 fs FieldTag.kp,
    mouseClicks := specIntFrom 0 fs FieldTag.mc,
    mouseDistanceIn := specRatFrom 0 fs FieldTag.din,
    mouseDistanceMi := specRatFrom 0 fs FieldTag.dmi,
    scrollSteps := specIntFrom 0 fs FieldTag.ss }

/-- One result of `conn.Read(buffer)` in the `handleConnection` loop: a chunk
holding one message payload, or a read error (peer disconnect, end of stream,
I/O failure; data accompanying an error is discarded, as the Go code checks
`err` before looking at the buffer). -/
inductive ReadEvent where
  | chunk (r : Raw)
  | readErr
deriving DecidableEq

/-- One observable action of the `handleConnection` loop: a log line for an
unmarshal error, a log line for a read error, or a publish of a decoded
snapshot (the call `updateMenuItems(&metrics)`). -/
inductive Out where
  | logDecodeErr
  | logReadErr
  | publish (m : Metrics)
deriving DecidableEq

/-- Embeds `handleConnection` (src/menubar/main.go lines 78-96) as a trace
function over the sequence of read results on one connection: a read error
is logged and the function returns; an unmarshal error is logged and the loop
continues with the next read; a decoded snapshot is published. -/
def handleConnection : List ReadEvent → List Out
  | [] => []
  | ReadEvent.readErr :: _ => [Out.logReadErr]
  | ReadEvent.chunk r :: rest =>
    match unmarshal r with
    | none => Out.logDecodeErr :: handleConnection rest
    | some m => Out.publish m :: handleConnection rest

/-- One result of `listener.Accept()` in the accept loop: a new connection
together with the read results it will deliver, or an accept error. -/
inductive AcceptResult where
  | ok (conn : List ReadEvent)
  | acceptErr
deriving DecidableEq

/-- One observable action of the accept loop: the log line for an accept
error, or a connection handed to `handleConnection` together with the actions
that handler performs. -/
inductive LOut where
  | acceptLogErr
  | connection (acts : List Out)
deriving DecidableEq

/-- Embeds the accept loop of `startSocketListener` (src/menubar/main.go
lines 54-62) as a trace function over the sequence of accept results: an
accept error is logged and the loop continues; an accepted connection is
handed to `handleConnection`. -/
def startSocketListener : List AcceptResult → List LOut
  | [] => []
  | AcceptResult.acceptErr :: rest => LOut.acceptLogErr :: startSocketListener rest
  | AcceptResult.ok conn :: rest =>
    LOut.connection (handleConnection conn) :: startSocketListener rest

/-- A `*systray.MenuItem` handle: `none` while the Go global pointer is nil,
`some ()` once `systray.AddMenuItem` has assigned it. -/
abbrev MenuItem := Unit

/-- The systray-side globals of the Go program: the four menu-item pointers
and the `isMenuInitialized` flag. -/
structure TrayState where
  isMenuInitialized : Bool
  mKeyPresses : Option MenuItem
  mMouseClicks : Option MenuItem
  mMouseDistance : Option MenuItem
  mScrollSteps : Option MenuItem
deriving DecidableEq

/-- The state of the globals at process start: nil pointers, flag false. -/
def initTray : TrayState :=
  { isMenuInitialized := false, mKeyPresses := none, mMouseClicks := none,
    mMouseDistance := none, mScrollSteps := none }

/-- Embeds `onReady` (src/menubar/main.go lines 98-120) as far as it touches
the shared globals: the four menu items are created and assigned, then
`isMenuInitialized` is set to true. -/
def onReady (st : TrayState) : TrayState :=
  { st with
    mKeyPresses := some (),
    mMouseClicks := some (),
    mMouseDistance := some (),
    mScrollSteps := some (),
    isMenuInitialized := true }

/-- The states the tray globals can reach: the initial state, and the result
of running `onReady` (the only writer of these globals) from a reachable
state. -/
inductive Reach : TrayState → Prop where
  | init : Reach initTray
  | ready : ∀ {st : TrayState}, Reach st → Reach (onReady st)

/-- The four visible fields of the display sink. -/
inductive DispField where
  | keyPresses | mouseClicks | mouseDistance | scrollSteps
deriving DecidableEq

/-- One `SetTitle` call pushed to the display sink: the field and the text. -/
abbrev SetTitleCall := DispField × String

/-- Rounding of the fraction `a / b` (with `b` positive) to the nearest
integer with ties to even, the rounding `fmt.Sprintf` applies when a value
is printed with fixed precision (the binary `float64` representation is
idealized away, so a decimal tie rounds to even here where the exact binary
value of the float decides in Go). -/
def rheDiv (a b : Int) : Int :=
  let n := Int.fdiv a b
  let r := a - n * b
  if 2 * r < b then n
  else if b < 2 * r then n + 1
  else if n % 2 = 0 then n else n + 1

/-- Two-digit zero-padding of the fractional part. -/
def pad2 (n : Nat) : String :=
  if n < 10 then "0" ++ toString n else toString n

/-- Embeds `fmt.Sprintf` with verb `%.2f`: the value rounded to hundredths
(one hundred times the value, rounded to nearest over the reduced fraction),
printed with exactly two digits after the point. -/
def fmt2 (q : ℚ) : String :=
  let r := rheDiv (100 * q.num) (Int.ofNat q.den)
  let a := r.natAbs
  let core := toString (a / 100) ++ "." ++ pad2 (a % 100)
  if r < 0 then "-" ++ core else core

/-- The four `SetTitle` calls the body of `updateMenuItems` pushes for
snapshot `m` (src/menubar/main.go lines 147-151), with the formatting the Go
code uses: `%d` for the three counters and `%.2f in / %.2f mi` for the mouse
travel. -/
def renderCalls (m : Metrics) : List SetTitleCall :=
  [(DispField.keyPresses, "Keypresses: " ++ toString m.keypresses),
   (DispField.mouseClicks, "Mouse Clicks: " ++ toString m.mouseClicks),
   (DispField.mouseDistance,
     "Mouse Travel: " ++ fmt2 m.mouseDistanceIn ++ " in / "
       ++ fmt2 m.mouseDistanceMi ++ " mi"),
   (DispField.scrollSteps, "Scroll Steps: " ++ toString m.scrollSteps)]

/-- Embeds `updateMenuItems` (src/menubar/main.go lines 136-152): if the
menu is not initialized the update is skipped with a diagnostic and no
`SetTitle` call occurs; if any menu-item pointer is nil the update is
likewise skipped; otherwise the four `SetTitle` calls are pushed. -/
def updateMenuItems (st : TrayState) (m : Metrics) : List SetTitleCall :=
  if !st.isMenuInitialized then []
  else if st.mKeyPresses.isNone || st.mMouseClicks.isNone
      || st.mMouseDistance.isNone || st.mScrollSteps.isNone then []
  else renderCalls m

/-- Embeds the `handleConnection` loop at the level of the display sink: on
each successfully decoded message the loop calls `updateMenuItems(&metrics)`
with the one whole struct that message decoded to, so each element of the
result is the batch of `SetTitle` calls of one render. -/
def handleConnRenders (st : TrayState) : List ReadEvent → List (List SetTitleCall)
  | [] => []
  | ReadEvent.readErr :: _ => []
  | ReadEvent.chunk r :: rest =>
    match unmarshal r with
    | none => handleConnRenders st rest
    | some m => updateMenuItems st m :: handleConnRenders st rest

/-- The shared listener / socket-file state `cleanup` acts on: `listener` is
`none` while the Go global is nil (bind never completed), `some true` for a
bound open listener and `some false` once closed; `sockFile` records whether
a file exists at the socket address `/tmp/kawaiilogger.sock`. -/
structure SysState where
  listener : Option Bool
  sockFile : Bool
deriving DecidableEq, Repr

/-- Embeds `listener.Close()`: closing an open unix-socket listener also
unlinks its socket file (Go unlinks on close); closing an already closed
listener returns an error that `cleanup` discards and changes nothing. -/
def closeListener (s : SysState) : SysState :=
  match s.listener with
  | some true => { listener := some false, sockFile := false }
  | _ => s

/-- Embeds `os.Remove(sockAddr)` as `cleanup` uses it: the file is removed;
the not-exist error for an already absent file is discarded. -/
def osRemoveSock (s : SysState) : SysState := { s with sockFile := false }

/-- Embeds `cleanup` (src/menubar/main.go lines 128-134): close the listener
when the global is non-nil (its error, if any, is discarded), then remove the
socket file (its error, if any, is discarded); the routine itself has no
failure path. -/
def cleanup (s : SysState) : SysState :=
  osRemoveSock (if s.listener.isSome then closeListener s else s)

/-- Outcome of the `os.Remove(sockAddr)` call at startup: the stale file was
removed, no file existed, or the removal failed for another reason. -/
inductive RemoveOutcome where
  | removed
  | notExist
  | failed
deriving DecidableEq

/-- Whether the process reaches the listening state or exits through
`log.Fatalf`. -/
inductive StartResult where
  | running
  | fatalExit
deriving DecidableEq

/-- The filesystem at the fixed socket address: whether a file is present. -/
structure FS where
  sockFile : Bool
deriving DecidableEq, Repr

/-- Embeds `os.Remove(sockAddr)` at startup over the filesystem state;
`removeFailure` models an environmental failure other than absence (for
which Go reports an error that `os.IsNotExist` rejects). -/
def osRemove (fs : FS) (removeFailure : Bool) : FS × RemoveOutcome :=
  if removeFailure then (fs, RemoveOutcome.failed)
  else if fs.sockFile then (⟨false⟩, RemoveOutcome.removed)
  else (fs, RemoveOutcome.notExist)

/-- Embeds `net.Listen("unix", sockAddr)`: binding creates the socket file
and fails when a file is already present at the address (address in use) or
on an environmental failure (`listenFailure`). -/
def netListen (fs : FS) (listenFailure : Bool) : Option FS :=
  if listenFailure ∨ fs.sockFile then none else some ⟨true⟩

/-- Embeds the startup sequence of `main` and `startSocketListener`
(src/menubar/main.go lines 32-52): remove any pre-existing socket file,
treating the not-exist outcome as success and any other removal failure as
fatal; then bind the listener at the address, any bind failure being fatal. -/
def mainStartup (fs : FS) (removeFailure listenFailure : Bool) :
    StartResult × FS :=
  match osRemove fs removeFailure with
  | (_, RemoveOutcome.failed) => (StartResult.fatalExit, fs)
  | (fs1, _) =>
    match netListen fs1 listenFailure with
    | none => (StartResult.fatalExit, fs1)
    | some fs2 => (StartResult.running, fs2)

theorem asInt_ne_null {v : Jval} {i : Int} (h : asInt v = some i) :
    ¬ v = Jval.null := by
  intro hv
  subst hv
  simp [asInt] at h

theorem asNum_ne_null {v : Jval} {q : ℚ} (h : asNum v = some q) :
    ¬ v = Jval.null := by
  intro hv
  subst hv
  simp [asNum] at h

theorem lastNum_cons (k : String) (v : Jval) (rest : List (String × Jval))
    (t : FieldTag) :
    lastNum ((k, v) :: rest) t =
      match lastNum rest t with
      | some w => some w
      | none => if tagOf k = t then some v else none := rfl

theorem specIntFrom_cons_ne (k : String) (v : Jval)
    (rest : List (String × Jval)) (t : FieldTag) (d : Int)
    (h : ¬ tagOf k = t) :
    specIntFrom d ((k, v) :: rest) t = specIntFrom d rest t := by
  unfold specIntFrom
  rw [lastNum_cons]
  cases lastNum rest t with
  | none => simp [h]
  | some w => simp

theorem specRatFrom_cons_ne (k : String) (v : Jval)
    (rest : List (String × Jval)) (t : FieldTag) (d : ℚ)
    (h : ¬ tagOf k = t) :
    specRatFrom d ((k, v) :: rest) t = specRatFrom d rest t := by
  unfold specRatFrom
  rw [lastNum_cons]
  cases lastNum rest t with
  | none => simp [h]
  | some w => simp

theorem specIntFrom_cons_eq (k : String) (v : Jval)
    (rest : List (String × Jval)) (t : FieldTag) (d i : Int)
    (htag : tagOf k = t) (hv : asInt v = some i)
    (hres : ∀ w, lastNum rest t = some w → (asInt w).isSome = true) :
    specIntFrom d ((k, v) :: rest) t = specIntFrom i rest t := by
  unfold specIntFrom
  rw [lastNum_cons]
  cases hl : lastNum rest t with
  | none => simp [htag, hv]
  | some w =>
    obtain ⟨j, hj⟩ := Option.isSome_iff_exists.mp (hres w hl)
    simp [hj]

theorem specRatFrom_cons_eq (k : String) (v : Jval)
    (rest : List (String × Jval)) (t : FieldTag) (d q : ℚ)
    (htag : tagOf k = t) (hv : asNum v = some q)
    (hres : ∀ w, lastNum rest t = some w → (asNum w).isSome = true) :
    specRatFrom d ((k, v) :: rest) t = specRatFrom q rest t := by
  unfold specRatFrom
  rw [lastNum_cons]
  cases hl : lastNum rest t with
  | none => simp [htag, hv]
  | some w =>
    obtain ⟨p, hp⟩ := Option.isSome_iff_exists.mp (hres w hl)
    simp [hp]

theorem lastNum_wf_isSome_int (fs : List (String × Jval)) (t : FieldTag)
    (hwf : wellFormedB fs = true)
    (ht : t = FieldTag.kp ∨ t = FieldTag.mc ∨ t = FieldTag.ss) :
    ∀ w, lastNum fs t = some w → (asInt w).isSome = true := by
  induction fs with
  | nil => intro w hw; simp [lastNum] at hw
  | cons kv rest ih =>
    obtain ⟨k, v⟩ := kv
    rw [wellFormedB, List.all_cons, Bool.and_eq_true] at hwf
    obtain ⟨hok, hrest⟩ := hwf
    intro w hw
    rw [lastNum_cons] at hw
    cases hl : lastNum rest t with
    | some w2 =>
      rw [hl] at hw
      simp only [] at hw
      cases hw
      exact ih hrest _ hl
    | none =>
      rw [hl] at hw
      simp only [] at hw
      by_cases hk : tagOf k = t
      · rw [if_pos hk] at hw
        cases hw
        rcases ht with rfl | rfl | rfl <;> simpa [okField, hk] using hok
      · rw [if_neg hk] at hw
        simp at hw

theorem lastNum_wf_isSome_rat (fs : List (String × Jval)) (t : FieldTag)
    (hwf : wellFormedB fs = true)
    (ht : t = FieldTag.din ∨ t = FieldTag.dmi) :
    ∀ w, lastNum fs t = some w → (asNum w).isSome = true := by
  induction fs with
  | nil => intro w hw; simp [lastNum] at hw
  | cons kv rest ih =>
    obtain ⟨k, v⟩ := kv
    rw [wellFormedB, List.all_cons, Bool.and_eq_true] at hwf
    obtain ⟨hok, hrest⟩ := hwf
    intro w hw
    rw [lastNum_cons] at hw
    cases hl : lastNum rest t with
    | some w2 =>
      rw [hl] at hw
      simp only [] at hw
      cases hw
      exact ih hrest _ hl
    | none =>
      rw [hl] at hw
      simp only [] at hw
      by_cases hk : tagOf k = t
      · rw [if_pos hk] at hw
        cases hw
        rcases ht with rfl | rfl <;> simpa [okField, hk] using hok
      · rw [if_neg hk] at hw
        simp at hw

theorem decodeObj_spec : ∀ (fs : List (String × Jval)),
    wellFormedB fs = true → ∀ m : Metrics,
    decodeObj m fs = some
      { keypresses := specIntFrom m.keypresses fs FieldTag.kp,
        mouseClicks := specIntFrom m.mouseClicks fs FieldTag.mc,
        mouseDistanceIn := specRatFrom m.mouseDistanceIn fs FieldTag.din,
        mouseDistanceMi := specRatFrom m.mouseDistanceMi fs FieldTag.dmi,
        scrollSteps := specIntFrom m.scrollSteps fs FieldTag.ss } := by
  intro fs
  induction fs with
  | nil => intro _ m; rfl
  | cons kv rest ih =>
    obtain ⟨k, v⟩ := kv
    intro hwf m
    rw [wellFormedB, List.all_cons, Bool.and_eq_true] at hwf
    obtain ⟨hok, hrest⟩ := hwf
    have hrest' : wellFormedB rest = true := hrest
    cases htag : tagOf k with
    | kp =>
      have hx : (asInt v).isSome = true := by simpa [okField, htag] using hok
      obtain ⟨i, hi⟩ := Option.isSome_iff_exists.mp hx
      have hnn : ¬ v = Jval.null := asInt_ne_null hi
      have h1 : decodeObj m ((k, v) :: rest)
          = decodeObj { m with keypresses := i } rest := by
        simp [decodeObj, setField, hnn, htag, hi]
      rw [h1, ih hrest']
      rw [specIntFrom_cons_eq k v rest FieldTag.kp m.keypresses i htag hi
            (lastNum_wf_isSome_int rest FieldTag.kp hrest' (Or.inl rfl)),
          specIntFrom_cons_ne k v rest FieldTag.mc m.mouseClicks (by simp [htag]),
          specRatFrom_cons_ne k v rest FieldTag.din m.mouseDistanceIn (by simp [htag]),
          specRatFrom_cons_ne k v rest FieldTag.dmi m.mouseDistanceMi (by simp [htag]),
          specIntFrom_cons_ne k v rest FieldTag.ss m.scrollSteps (by simp [htag])]
    | mc =>
      have hx : (asInt v).isSome = true := by simpa [okField, htag] using hok
      obtain ⟨i, hi⟩ := Option.isSome_iff_exists.mp hx
      have hnn : ¬ v = Jval.null := asInt_ne_null hi
      have h1 : decodeObj m ((k, v) :: rest)
          = decodeObj { m with mouseClicks := i } rest := by
        simp [decodeObj, setField, hnn, htag, hi]
      rw [h1, ih hrest']
      rw [specIntFrom_cons_ne k v rest FieldTag.kp m.keypresses (by simp [htag]),
          specIntFrom_cons_eq k v rest FieldTag.mc m.mouseClicks i htag hi
            (lastNum_wf_isSome_int rest FieldTag.mc hrest' (Or.inr (Or.inl rfl))),
          specRatFrom_cons_ne k v rest FieldTag.din m.mouseDistanceIn (by simp [htag]),
          specRatFrom_cons_ne k v rest FieldTag.dmi m.mouseDistanceMi (by simp [htag]),
          specIntFrom_cons_ne k v rest FieldTag.ss m.scrollSteps (by simp [htag])]
    | din =>
      have hx : (asNum v).isSome = true := by simpa [okField, htag] using hok
      obtain ⟨q, hq⟩ := Option.isSome_iff_exists.mp hx
      have hnn : ¬ v = Jval.null := asNum_ne_null hq
      have h1 : decodeObj m ((k, v) :: rest)
          = decodeObj { m with mouseDistanceIn := q } rest := by
        simp [decodeObj, setField, hnn, htag, hq]
      rw [h1, ih hrest']
      rw [specIntFrom_cons_ne k v rest FieldTag.kp m.keypresses (by simp [htag]),
          specIntFrom_cons_ne k v rest FieldTag.mc m.mouseClicks (by simp [htag]),
          specRatFrom_cons_eq k v rest FieldTag.din m.mouseDistanceIn q htag hq
            (lastNum_wf_isSome_rat rest FieldTag.din hrest' (Or.inl rfl)),
          specRatFrom_cons_ne k v rest FieldTag.dmi m.mouseDistanceMi (by simp [htag]),
          specIntFrom_cons_ne k v rest FieldTag.ss m.scrollSteps (by simp [htag])]
    | dmi =>
      have hx : (asNum v).isSome = true := by simpa [okField, htag] using hok
      obtain ⟨q, hq⟩ := Option.isSome_iff_exists.mp hx
      have hnn : ¬ v = Jval.null := asNum_ne_null hq
      have h1 : decodeObj m ((k, v) :: rest)
          = decodeObj { m with mouseDistanceMi := q } rest := by
        simp [decodeObj, setField, hnn, htag, hq]
      rw [h1, ih hrest']
      rw [specIntFrom_cons_ne k v rest FieldTag.kp m.keypresses (by simp [htag]),
          specIntFrom_cons_ne k v rest FieldTag.mc m.mouseClicks (by simp [htag]),
          specRatFrom_cons_ne k v rest FieldTag.din m.mouseDistanceIn (by simp [htag]),
          specRatFrom_cons_eq k v rest FieldTag.dmi m.mouseDistanceMi q htag hq
            (lastNum_wf_isSome_rat rest FieldTag.dmi hrest' (Or.inr rfl)),
          specIntFrom_cons_ne k v rest FieldTag.ss m.scrollSteps (by simp [htag])]
    | ss =>
      have hx : (asInt v).isSome = true := by simpa [okField, htag] using hok
      obtain ⟨i, hi⟩ := Option.isSome_iff_exists.mp hx
      have hnn : ¬ v = Jval.null := asInt_ne_null hi
      have h1 : decodeObj m ((k, v) :: rest)
          = decodeObj { m with scrollSteps := i } rest := by
        simp [decodeObj, setField, hnn, htag, hi]
      rw [h1, ih hrest']
      rw [specIntFrom_cons_ne k v rest FieldTag.kp m.keypresses (by simp [htag]),
          specIntFrom_cons_ne k v rest FieldTag.mc m.mouseClicks (by simp [htag]),
          specRatFrom_cons_ne k v rest FieldTag.din m.mouseDistanceIn (by simp [htag]),
          specRatFrom_cons_ne k v rest FieldTag.dmi m.mouseDistanceMi (by simp [htag]),
          specIntFrom_cons_eq k v rest FieldTag.ss m.scrollSteps i htag hi
            (lastNum_wf_isSome_int rest FieldTag.ss hrest' (Or.inr (Or.inr rfl)))]
    | other =>
      have h1 : decodeObj m ((k, v) :: rest) = decodeObj m rest := by
        by_cases hnn : v = Jval.null
        · simp [decodeObj, setField, hnn]
        · simp [decodeObj, setField, hnn, htag]
      rw [h1, ih hrest']
      rw [specIntFrom_cons_ne k v rest FieldTag.kp m.keypresses (by simp [htag]),
          specIntFrom_cons_ne k v rest FieldTag.mc m.mouseClicks (by simp [htag]),
          specRatFrom_cons_ne k v rest FieldTag.din m.mouseDistanceIn (by simp [htag]),
          specRatFrom_cons_ne k v rest FieldTag.dmi m.mouseDistanceMi (by simp [htag]),
          specIntFrom_cons_ne k v rest FieldTag.ss m.scrollSteps (by simp [htag])]

/-- All five fields of a snapshot are non-negative. -/
def nonnegM (m : Metrics) : Prop :=
  0 ≤ m.keypresses ∧ 0 ≤ m.mouseClicks ∧ 0 ≤ m.mouseDistanceIn
    ∧ 0 ≤ m.mouseDistanceMi ∧ 0 ≤ m.scrollSteps

theorem asInt_nonneg {v : Jval} {i : Int}
    (hv : ∀ q b, v = Jval.num q b → 0 ≤ q) (h : asInt v = some i) : 0 ≤ i := by
  cases v with
  | num q b =>
    have hq := hv q b rfl
    rw [asInt] at h
    split at h
    · cases h
      exact Rat.num_nonneg.mpr hq
    · cases h
  | str s => simp [asInt] at h
  | boolean b => simp [asInt] at h
  | null => simp [asInt] at h
  | arr => simp [asInt] at h
  | obj => simp [asInt] at h

theorem asNum_nonneg {v : Jval} {q : ℚ}
    (hv : ∀ p b, v = Jval.num p b → 0 ≤ p) (h : asNum v = some q) : 0 ≤ q := by
  cases v with
  | num p b =>
    have hp := hv p b rfl
    rw [asNum] at h
    cases h
    exact hp
  | str s => simp [asNum] at h
  | boolean b => simp [asNum] at h
  | null => simp [asNum] at h
  | arr => simp [asNum] at h
  | obj => simp [asNum] at h

theorem setField_nonneg {m m' : Metrics} {k : String} {v : Jval}
    (hv : ∀ q b, v = Jval.num q b → 0 ≤ q) (hm : nonnegM m)
    (h : setField m k v = some m') : nonnegM m' := by
  by_cases hn : v = Jval.null
  · rw [setField, if_pos hn] at h
    cases h
    exact hm
  · rw [setField, if_neg hn] at h
    obtain ⟨h1, h2, h3, h4, h5⟩ := hm
    cases htag : tagOf k <;> rw [htag] at h
    · cases hi : asInt v with
      | none => rw [hi] at h; cases h
      | some i =>
        rw [hi] at h
        cases h
        exact ⟨asInt_nonneg hv hi, h2, h3, h4, h5⟩
    · cases hi : asInt v with
      | none => rw [hi] at h; cases h
      | some i =>
        rw [hi] at h
        cases h
        exact ⟨h1, asInt_nonneg hv hi, h3, h4, h5⟩
    · cases hq : asNum v with
      | none => rw [hq] at h; cases h
      | some q =>
        rw [hq] at h
        cases h
        exact ⟨h1, h2, asNum_nonneg hv hq, h4, h5⟩
    · cases hq : asNum v with
      | none => rw [hq] at h; cases h
      | some q =>
        rw [hq] at h
        cases h
        exact ⟨h1, h2, h3, asNum_nonneg hv hq, h5⟩
    · cases hi : asInt v with
      | none => rw [hi] at h; cases h
      | some i =>
        rw [hi] at h
        cases h
        exact ⟨h1, h2, h3, h4, asInt_nonneg hv hi⟩
    · cases h
      exact ⟨h1, h2, h3, h4, h5⟩

theorem decodeObj_nonneg : ∀ (fs : List (String × Jval)),
    (∀ kv ∈ fs, ∀ q b, kv.2 = Jval.num q b → 0 ≤ q) →
    ∀ m s : Metrics, nonnegM m → decodeObj m fs = some s → nonnegM s := by
  intro fs
  induction fs with
  | nil =>
    intro _ m s hm h
    cases h
    exact hm
  | cons kv rest ih =>
    obtain ⟨k, v⟩ := kv
    intro hfs m s hm h
    rw [decodeObj] at h
    cases hset : setField m k v with
    | none => rw [hset] at h; cases h
    | some m2 =>
      rw [hset] at h
      simp only [] at h
      have hv : ∀ q b, v = Jval.num q b → 0 ≤ q := fun q b hq =>
        hfs (k, v) (List.mem_cons_self _ _) q b hq
      have hrest : ∀ kv ∈ rest, ∀ q b, kv.2 = Jval.num q b → 0 ≤ q :=
        fun kv hkv q b hq => hfs kv (List.mem_cons_of_mem _ hkv) q b hq
      exact ih hrest m2 s (setField_nonneg hv hm hset) h

/-- C1 (amended): for every structurally well-formed snapshot message, decode
yields the snapshot in which each field whose tag is matched — Go matches
object keys against the field tags case-insensitively — carries the value the
message supplies for it (the last occurrence when a tag is matched more than
once), every field no key matches equals zero, and entries whose keys match
no tag are ignored; in particular decoding a message containing only
keypresses = 5 yields keypress_count = 5 and all other fields zero.  The
claim as frozen demands exact-name matching; `decode_caseInsensitive_cex`
shows the code matches case-insensitively. -/
theorem decode_wellFormed_spec (fs : List (String × Jval))
    (hwf : wellFormedB fs = true) :
    unmarshal (Raw.object fs) = some (specDecode fs) ∧
    unmarshal (Raw.object [("keypresses", Jval.num 5 true)])
      = some { zeroMetrics with keypresses := 5 } := by
  constructor
  · exact decodeObj_spec fs hwf zeroMetrics
  · decide

/-- C1 witness: the amended theorem applied to the concrete message of the
claim, a message with an unrecognized extra key, and a message with a missing
field. -/
theorem decode_wellFormed_spec_witness :
    unmarshal (Raw.object [("mouse_clicks", Jval.num 3 true),
        ("junk", Jval.str "x")])
      = some (specDecode [("mouse_clicks", Jval.num 3 true),
        ("junk", Jval.str "x")]) ∧
    unmarshal (Raw.object [("keypresses", Jval.num 5 true)])
      = some { zeroMetrics with keypresses := 5 } :=
  decode_wellFormed_spec [("mouse_clicks", Jval.num 3 true),
    ("junk", Jval.str "x")] (by decide)

/-- C1 counterexample: the message containing only the key `KeyPresses` — by
the claim an unrecognized extra field, to be ignored, with the `keypresses`
field absent and therefore zero — decodes to a snapshot whose keypress count
is 7, because Go json matching also accepts a case-insensitive match. -/
theorem decode_caseInsensitive_cex :
    wellFormedB [("KeyPresses", Jval.num 7 true)] = true ∧
    unmarshal (Raw.object [("KeyPresses", Jval.num 7 true)])
      = some { zeroMetrics with keypresses := 7 } ∧
    ¬ unmarshal (Raw.object [("KeyPresses", Jval.num 7 true)])
      = some zeroMetrics := by
  refine ⟨by decide, by decide, by decide⟩

/-- C2: on a connection delivering one malformed message and then one
well-formed message, the decode failure is logged, the connection is not
closed, reading continues with the next message, the failure never reaches
the publisher, and exactly one publish — of the well-formed snapshot —
occurs before the trace continues with the remaining events. -/
theorem reader_malformed_isolation (bad good : Raw) (s : Metrics)
    (rest : List ReadEvent) (hbad : unmarshal bad = none)
    (hgood : unmarshal good = some s) :
    handleConnection (ReadEvent.chunk bad :: ReadEvent.chunk good :: rest)
      = Out.logDecodeErr :: Out.publish s :: handleConnection rest := by
  simp [handleConnection, hbad, hgood]

/-- C2 witness: a malformed payload followed by a valid snapshot message
yields exactly the decode-error log and the one publish. -/
theorem reader_malformed_isolation_witness :
    handleConnection [ReadEvent.chunk Raw.malformed,
        ReadEvent.chunk (Raw.object [("keypresses", Jval.num 5 true)])]
      = [Out.logDecodeErr, Out.publish { zeroMetrics with keypresses := 5 }] :=
  reader_malformed_isolation Raw.malformed
    (Raw.object [("keypresses", Jval.num 5 true)])
    { zeroMetrics with keypresses := 5 } [] (by decide) (by decide)

/-- C3: every batch of display updates the reader pushes is generated from
one single completely decoded snapshot — in the code the decode loop hands
`updateMenuItems` the whole freshly decoded struct, so a render observes all
fields of exactly one snapshot and never a mix of fields from two
snapshots. -/
theorem render_whole_snapshot (st : TrayState) (evs : List ReadEvent) :
    ∀ batch : List SetTitleCall, batch ∈ handleConnRenders st evs →
    ∃ r m, ReadEvent.chunk r ∈ evs ∧ unmarshal r = some m ∧
      batch = updateMenuItems st m := by
  induction evs with
  | nil => intro b hb; simp [handleConnRenders] at hb
  | cons e rest ih =>
    intro b hb
    cases e with
    | readErr => simp [handleConnRenders] at hb
    | chunk r =>
      cases hr : unmarshal r with
      | none =>
        simp only [handleConnRenders, hr] at hb
        obtain ⟨r2, m, hmem, hu, hbatch⟩ := ih b hb
        exact ⟨r2, m, List.mem_cons_of_mem _ hmem, hu, hbatch⟩
      | some m =>
        simp only [handleConnRenders, hr] at hb
        rcases List.mem_cons.mp hb with hbeq | hbtail
        · exact ⟨r, m, List.mem_cons_self _ _, hr, hbeq⟩
        · obtain ⟨r2, m2, hmem, hu, hbatch⟩ := ih b hbtail
          exact ⟨r2, m2, List.mem_cons_of_mem _ hmem, hu, hbatch⟩

/-- C3 witness: on a one-message trace, the single pushed batch is the
render of the one decoded snapshot. -/
theorem render_whole_snapshot_witness :
    ∃ r m,
      ReadEvent.chunk r
        ∈ [ReadEvent.chunk (Raw.object [("scroll_steps", Jval.num 2 true)])] ∧
      unmarshal r = some m ∧
      updateMenuItems (onReady initTray) { zeroMetrics with scrollSteps := 2 }
        = updateMenuItems (onReady initTray) m :=
  render_whole_snapshot (onReady initTray)
    [ReadEvent.chunk (Raw.object [("scroll_steps", Jval.num 2 true)])]
    (updateMenuItems (onReady initTray) { zeroMetrics with scrollSteps := 2 })
    (by decide)

/-- C4: a read failure terminates only that connection — its reader logs the
error and returns without publishing further; the accept loop is unaffected
and a subsequent new connection is accepted and handled by the same reader
logic, its messages decoded and published normally. -/
theorem reader_disconnect_isolation (rest pre c2 more : List ReadEvent)
    (conns : List AcceptResult) (g : Raw) (s : Metrics)
    (hg : unmarshal g = some s) :
    handleConnection (ReadEvent.readErr :: rest) = [Out.logReadErr] ∧
    startSocketListener (AcceptResult.ok (pre ++ [ReadEvent.readErr])
        :: AcceptResult.ok c2 :: conns)
      = LOut.connection (handleConnection (pre ++ [ReadEvent.readErr]))
        :: LOut.connection (handleConnection c2)
        :: startSocketListener conns ∧
    handleConnection (ReadEvent.chunk g :: more)
      = Out.publish s :: handleConnection more := by
  refine ⟨rfl, rfl, ?_⟩
  simp [handleConnection, hg]

/-- C4 witness: after a connection that disconnects immediately, a second
connection delivering one valid message is accepted and publishes it. -/
theorem reader_disconnect_isolation_witness :
    handleConnection [ReadEvent.readErr] = [Out.logReadErr] ∧
    startSocketListener [AcceptResult.ok ([] ++ [ReadEvent.readErr]),
        AcceptResult.ok [ReadEvent.chunk
          (Raw.object [("mouse_clicks", Jval.num 4 true)])]]
      = [LOut.connection (handleConnection ([] ++ [ReadEvent.readErr])),
         LOut.connection (handleConnection [ReadEvent.chunk
           (Raw.object [("mouse_clicks", Jval.num 4 true)])])] ∧
    handleConnection [ReadEvent.chunk
        (Raw.object [("mouse_clicks", Jval.num 4 true)])]
      = [Out.publish { zeroMetrics with mouseClicks := 4 }] :=
  reader_disconnect_isolation [] []
    [ReadEvent.chunk (Raw.object [("mouse_clicks", Jval.num 4 true)])] []
    [] (Raw.object [("mouse_clicks", Jval.num 4 true)])
    { zeroMetrics with mouseClicks := 4 } (by decide)

/-- C5: a render requested while the ready flag is false performs no display
sink call at all; once the one-time setup has run (assigning the four menu
items and then setting the flag), a render with a snapshot pushes all the
display fields, the mouse travel formatted as inches and miles with two
decimal places. -/
theorem render_ready_gate :
    (∀ (st : TrayState) (m : Metrics), st.isMenuInitialized = false →
      updateMenuItems st m = []) ∧
    (∀ (st : TrayState) (m : Metrics),
      updateMenuItems (onReady st) m = renderCalls m) ∧
    renderCalls { keypresses := 3, mouseClicks := 4,
                  mouseDistanceIn := Rat.mk' 5 2 (by decide) (by decide),
                  mouseDistanceMi := Rat.mk' 1 8 (by decide) (by decide),
                  scrollSteps := 6 }
      = [(DispField.keyPresses, "Keypresses: 3"),
         (DispField.mouseClicks, "Mouse Clicks: 4"),
         (DispField.mouseDistance, "Mouse Travel: 2.50 in / 0.12 mi"),
         (DispField.scrollSteps, "Scroll Steps: 6")] := by
  refine ⟨?_, ?_, by decide⟩
  · intro st m h
    simp [updateMenuItems, h]
  · intro st m
    simp [updateMenuItems, onReady]

/-- C5 witness: before setup no field is set; after setup the same render
pushes the full batch. -/
theorem render_ready_gate_witness :
    updateMenuItems initTray { zeroMetrics with keypresses := 9 } = [] ∧
    updateMenuItems (onReady initTray) { zeroMetrics with keypresses := 9 }
      = renderCalls { zeroMetrics with keypresses := 9 } :=
  ⟨render_ready_gate.1 initTray { zeroMetrics with keypresses := 9 } rfl,
   render_ready_gate.2.1 initTray { zeroMetrics with keypresses := 9 }⟩

/-- C6: `cleanup` is idempotent — a second invocation leaves exactly the end
state of the first (listener closed, socket file removed), it has no failure
path (every error of its callees is discarded), and it is safe when bind
never completed (nil listener). -/
theorem cleanup_idempotent (s : SysState) (b : Bool) :
    cleanup (cleanup s) = cleanup s ∧
    (cleanup s).sockFile = false ∧
    ¬ (cleanup s).listener = some true ∧
    cleanup { listener := none, sockFile := b }
      = { listener := none, sockFile := false } := by
  obtain ⟨l, f⟩ := s
  cases l with
  | none => cases f <;> cases b <;> exact ⟨rfl, rfl, by decide, rfl⟩
  | some lb => cases lb <;> cases f <;> cases b <;> exact ⟨rfl, rfl, by decide, rfl⟩

/-- C6 witness: two cleanups from a bound running state end in the state one
cleanup reaches. -/
theorem cleanup_idempotent_witness :
    cleanup (cleanup { listener := some true, sockFile := true })
      = cleanup { listener := some true, sockFile := true } :=
  (cleanup_idempotent { listener := some true, sockFile := true } true).1

/-- C7: at startup the pre-existing socket file is removed before binding,
a not-exist removal outcome is treated as success, a stale file at the
address therefore ends with a fresh endpoint bound there, and any other
removal failure — or a bind failure — exits the process fatally. -/
theorem startup_stale_socket (fs : FS) (lf : Bool) :
    mainStartup { sockFile := true } false false
      = (StartResult.running, { sockFile := true }) ∧
    mainStartup { sockFile := false } false false
      = (StartResult.running, { sockFile := true }) ∧
    mainStartup fs true lf = (StartResult.fatalExit, fs) ∧
    (mainStartup fs false true).1 = StartResult.fatalExit := by
  obtain ⟨b⟩ := fs
  cases b <;> cases lf <;> exact ⟨rfl, rfl, rfl, rfl⟩

/-- C7 witness: starting with a stale file at the address binds a fresh
endpoint there, and a removal failure is fatal. -/
theorem startup_stale_socket_witness :
    mainStartup { sockFile := true } false false
      = (StartResult.running, { sockFile := true }) ∧
    mainStartup { sockFile := true } true false
      = (StartResult.fatalExit, { sockFile := true }) :=
  ⟨(startup_stale_socket { sockFile := true } false).1,
   (startup_stale_socket { sockFile := true } false).2.2.1⟩

/-- C8: an error returned by any single accept attempt, wherever it falls in
the stream of accept results, is logged and the loop moves on to the next
iteration — the remaining results are handled exactly as they would be
without it, so no accept error terminates the loop or the endpoint. -/
theorem accept_error_continues (xs ys : List AcceptResult) :
    startSocketListener (xs ++ AcceptResult.acceptErr :: ys)
      = startSocketListener xs ++ LOut.acceptLogErr :: startSocketListener ys := by
  induction xs with
  | nil => rfl
  | cons x rest ih =>
    cases x <;> simp [startSocketListener, ih]

/-- C8 witness: an accept error between two accepted connections is logged
and both connections are handled. -/
theorem accept_error_continues_witness :
    startSocketListener ([AcceptResult.ok []]
        ++ AcceptResult.acceptErr :: [AcceptResult.ok [ReadEvent.readErr]])
      = startSocketListener [AcceptResult.ok []]
        ++ LOut.acceptLogErr
        :: startSocketListener [AcceptResult.ok [ReadEvent.readErr]] :=
  accept_error_continues [AcceptResult.ok []] [AcceptResult.ok [ReadEvent.readErr]]

/-- C9 (amended): decode applies no sign validation of its own — see
`decode_negative_cex` for a well-formed message whose decoded snapshot
carries a negative count — but whenever every number in the message is
non-negative, the decoded snapshot has all five fields non-negative (a field
absent from the message is zero). -/
theorem decode_nonneg_of_nonneg (fs : List (String × Jval)) (s : Metrics)
    (hfs : ∀ kv ∈ fs, ∀ q b, kv.2 = Jval.num q b → 0 ≤ q)
    (hdec : unmarshal (Raw.object fs) = some s) :
    0 ≤ s.keypresses ∧ 0 ≤ s.mouseClicks ∧ 0 ≤ s.mouseDistanceIn ∧
      0 ≤ s.mouseDistanceMi ∧ 0 ≤ s.scrollSteps :=
  decodeObj_nonneg fs hfs zeroMetrics s
    ⟨le_refl 0, le_refl 0, le_refl 0, le_refl 0, le_refl 0⟩ hdec

/-- C9 witness: the amended theorem at a concrete message with one
non-negative count. -/
theorem decode_nonneg_of_nonneg_witness :
    0 ≤ ({ zeroMetrics with mouseClicks := 2 } : Metrics).keypresses ∧
    0 ≤ ({ zeroMetrics with mouseClicks := 2 } : Metrics).mouseClicks ∧
    0 ≤ ({ zeroMetrics with mouseClicks := 2 } : Metrics).mouseDistanceIn ∧
    0 ≤ ({ zeroMetrics with mouseClicks := 2 } : Metrics).mouseDistanceMi ∧
    0 ≤ ({ zeroMetrics with mouseClicks := 2 } : Metrics).scrollSteps :=
  decode_nonneg_of_nonneg [("mouse_clicks", Jval.num 2 true)]
    { zeroMetrics with mouseClicks := 2 }
    (by
      intro kv hkv q b hq
      rw [List.mem_singleton] at hkv
      subst hkv
      obtain ⟨rfl, rfl⟩ := Jval.num.inj hq
      norm_num)
    (by decide)

/-- C9 counterexample: the well-formed message carrying keypresses = -5
decodes successfully to a snapshot whose keypress count is negative; the
code validates no sign. -/
theorem decode_negative_cex :
    wellFormedB [("keypresses", Jval.num (-5) true)] = true ∧
    unmarshal (Raw.object [("keypresses", Jval.num (-5) true)])
      = some { zeroMetrics with keypresses := -5 } ∧
    ({ zeroMetrics with keypresses := -5 } : Metrics).keypresses < 0 := by
  refine ⟨by decide, by decide, by decide⟩

/-- C10: in every reachable state of the tray globals in which the
menu-initialized flag is true, all four menu-item handles are assigned (the
flag is only ever set after the assignments), so the nil-handle skip branch
of the render is not taken and a post-ready render performs the full batch
of field updates. -/
theorem menu_ready_handles (st : TrayState) (m : Metrics)
    (hr : Reach st) (hinit : st.isMenuInitialized = true) :
    ¬ st.mKeyPresses = none ∧ ¬ st.mMouseClicks = none ∧
    ¬ st.mMouseDistance = none ∧ ¬ st.mScrollSteps = none ∧
    updateMenuItems st m = renderCalls m := by
  induction hr with
  | init => simp [initTray] at hinit
  | ready hprev ih =>
    refine ⟨by simp [onReady], by simp [onReady], by simp [onReady],
      by simp [onReady], ?_⟩
    simp [updateMenuItems, onReady]

/-- C10 witness: the state reached by running the setup once satisfies the
invariant and renders fully. -/
theorem menu_ready_handles_witness :
    ¬ (onReady initTray).mKeyPresses = none ∧
    ¬ (onReady initTray).mMouseClicks = none ∧
    ¬ (onReady initTray).mMouseDistance = none ∧
    ¬ (onReady initTray).mScrollSteps = none ∧
    updateMenuItems (onReady initTray) zeroMetrics = renderCalls zeroMetrics :=
  menu_ready_handles (onReady initTray) zeroMetrics
    (Reach.ready Reach.init) rfl
